import Mathlib

/-
Verification of the stickgen code generator (stickgen.go): a compiler from
parsed Twig template trees to Go source text.  The definitions below are a
shallow embedding of the Go source: pure helpers become Lean functions, the
mutable `Generator` struct becomes an explicit state record threaded through
the walk, Go maps become insertion-ordered association lists, and Go `error`
values become `Option String` / `Except String` carrying the message text.
The recursion through `extends` / `include` chains has no cycle guard in the
source, so the embedded walker takes a fuel parameter; running out of fuel
returns a distinguished error and leaves the state untouched.
-/

set_option autoImplicit false

namespace Stickgen

/-- Expression AST nodes, mirroring the `parse.Expr` variants that
`walkExpr` dispatches on; `other` stands for every further expression kind
of the external parser, which falls through to the default branch. -/
inductive Expr where
  | name (n : String)
  | str (text : String)
  | getAttr (cont attr : Expr) (args : List Expr)
  | func (fname : String) (args : List Expr)
  | binary (op : String) (left right : Expr)
  | other
deriving Repr

/-- Statement AST nodes, mirroring the `parse.Node` variants that `walk`
dispatches on; `other` stands for every further node kind, which the walker
ignores.  A module's `parent` is the `Tpl` expression of its extends
clause, when present. -/
inductive Node where
  | module (parent : Option Expr) (bodyN : Node)
  | body (children : List Node)
  | includeNode (tpl : Expr)
  | text (data : String) (line offset : Nat)
  | print (x : Expr) (line offset : Nat)
  | block (bname : String) (bodyN : Node) (line offset : Nat)
  | forN (key val : String) (x : Expr) (bodyN : Node) (line offset : Nat)
  | ifN (cond : Expr) (bodyN : Node) (elseN : Node) (line offset : Nat)
  | other
deriving Repr

/-- Children of a `BodyNode`, as `node.All()`; non-body nodes have none. -/
def allChildren : Node → List Node
  | .body cs => cs
  | _ => []

/-- The data captured by a registered block renderer closure: the inheritance
root name `g.stack[0]` at registration time, the block name and its body. -/
structure Block where
  rootName : String
  bname : String
  bodyN : Node
deriving Repr

/-- The evaluated-expression record `evaluatedExpr`. -/
structure EvaluatedExpr where
  body : String
  isFunction : Bool
  hasError : Bool
  resultantName : String
deriving Repr, DecidableEq

/-- The `Generator` struct.  `out` is the `bytes.Buffer`; `imports`, `blocks`
and `args` embed the Go maps as insertion-ordered association lists; the
loader is kept outside the record because the source never mutates it. -/
structure Generator where
  pkgName : String
  out : String
  name : String
  imports : List String
  blocks : List (String × Block)
  args : List String
  root : Bool
  stack : List String
  tabs : Nat
deriving Repr

/-- The external loader combined with the external parser:
`Load` + `ReadAll` + `parse.Parse`, name to module tree or error. -/
def Loader : Type := String → Except String Node

/-- `strings.Repeat("\t", tabs)`, the body of `Generator.indent`. -/
def indent (tabs : Nat) : String := String.mk (List.replicate tabs '\t')

/-- Membership-checked insertion, the Go `map[string]bool` set-add used by
`addImport` and by the `args` updates. -/
def argsInsert (k : String) (l : List String) : List String :=
  if l.contains k then l else l ++ [k]

/-- Go map store `g.blocks[k] = b`: overwrite in place or append. -/
def blocksInsert (k : String) (b : Block) : List (String × Block) → List (String × Block)
  | [] => [(k, b)]
  | (k', b') :: rest => if k' = k then (k, b) :: rest else (k', b') :: blocksInsert k b rest

/-- `addImport`: add the import if not already present. -/
def addImport (g : Generator) (n : String) : Generator :=
  { g with imports := argsInsert n g.imports }

/-- Append text to the output buffer, `g.out.WriteString`. -/
def write (g : Generator) (s : String) : Generator :=
  { g with out := g.out ++ s }

/-- The `// line L, offset O in NAME` trace comment emitted before most
statements, including its indentation and trailing newline. -/
def lineComment (g : Generator) (line off : Nat) : String :=
  indent g.tabs ++ "// line " ++ toString line ++ ", offset " ++ toString off
    ++ " in " ++ g.name ++ "\n"

/-- The word-character test of the `[^\w]|[_]` regexp: kept characters are
ASCII letters and digits (the regexp also strips underscores). -/
def isWordChar (c : Char) : Bool := c.isAlphanum

/-- Go `strings.Title` word-boundary test restricted to the post-strip
alphabet: everything except alphanumerics and underscore separates. -/
def goIsSeparator (c : Char) : Bool := !(c.isAlphanum || c == '_')

/-- Character-wise `strings.Title`: upper-case a character that follows a
separator (or starts the string). -/
def goTitleAux : Bool → List Char → List Char
  | _, [] => []
  | prevSep, c :: cs => (if prevSep then c.toUpper else c) :: goTitleAux (goIsSeparator c) cs

/-- `titleize`: replace every non-word character by a space, title-case, then
delete all spaces. -/
def titleize (s : String) : String :=
  let stripped := s.data.map (fun c => if isWordChar c then c else ' ')
  String.mk ((goTitleAux true stripped).filter (fun c => c != ' '))

/-- `newNameExpr`. -/
def newNameExpr (n : String) : EvaluatedExpr :=
  { body := n, resultantName := n, isFunction := false, hasError := false }

/-- `emptyExpr`. -/
def emptyExpr : EvaluatedExpr :=
  { body := "", resultantName := "", isFunction := false, hasError := false }

/-- `strings.Replace(s, pat, rep, 1)` on character lists: replace the first
occurrence only. -/
def replaceFirstAux (pat rep : List Char) : List Char → List Char
  | [] => []
  | c :: rest =>
    if pat.isPrefixOf (c :: rest) then rep ++ (c :: rest).drop pat.length
    else c :: replaceFirstAux pat rep rest

/-- `strings.Replace(s, pat, rep, 1)`. -/
def replaceFirst (s pat rep : String) : String :=
  String.mk (replaceFirstAux pat.data rep.data s.data)

/-- `evaluate`: only string literals resolve statically. -/
def evaluate : Expr → Option String
  | .str t => some t
  | _ => none

/-- `walkExpr`: translate an expression into an `evaluatedExpr` or fail.
Read-only in the generator state (it only consults `args` and `tabs`). -/
def walkExpr (g : Generator) : Expr → Except String EvaluatedExpr
  | .name n =>
    if g.args.contains n then .ok (newNameExpr n)
    else .ok (newNameExpr ("ctx[\"" ++ n ++ "\"]"))
  | .str t => .ok (newNameExpr ("\"" ++ t ++ "\""))
  | .getAttr cont attr args =>
    if args.length > 0 then .error "Method calls are currently unsupported."
    else
      match walkExpr g attr with
      | .error e => .error e
      | .ok a =>
        match walkExpr g cont with
        | .error e => .error e
        | .ok nm =>
          .ok { body := "val, err := stick.GetAttr(" ++ nm.resultantName ++ ", "
                  ++ a.resultantName ++ ")",
                isFunction := true, hasError := true, resultantName := "val" }
  | .func fname args =>
    match args with
    | [a0] =>
      match walkExpr g a0 with
      | .error e => .error e
      | .ok arg =>
        let argBody := if arg.isFunction then replaceFirst arg.body "err" "_" else ""
        .ok { body := argBody ++ "\n" ++ indent g.tabs ++ "\tvar fnval stick.Value = \"\"\n"
                ++ indent g.tabs ++ "\tif fn, ok := env.Functions[\"" ++ fname
                ++ "\"]; ok \x7b\n"
                ++ indent g.tabs ++ "\t\tfnval = fn(nil, " ++ arg.resultantName ++ ")\n"
                ++ indent g.tabs ++ "\t\x7d",
              isFunction := true, hasError := false, resultantName := "fnval" }
    | _ => .error "Function currently calls only support a single argument."
  | .binary op left right =>
    if op == "==" then
      match walkExpr g left with
      | .error e => .error e
      | .ok l =>
        match walkExpr g right with
        | .error e => .error e
        | .ok r =>
          let pre := if l.isFunction then replaceFirst l.body "err" "_ " else ""
          let pr :=
            if r.isFunction then
              let pre2 := if pre != "" then pre ++ "\n" ++ indent g.tabs else pre
              (pre2 ++ replaceFirst (replaceFirst l.body "err" "_ ") r.resultantName "right",
                "right")
            else (pre, r.resultantName)
          .ok { body := pr.1, isFunction := l.isFunction || r.isFunction, hasError := false,
                resultantName := "stick.Equal(" ++ l.resultantName ++ ", " ++ pr.2 ++ ")" }
    else .error ("stickgen: unsupported binary operator: " ++ op)
  | .other => .ok emptyExpr

/-- Work items of the mutually recursive Go functions `generate` (load a
template by name and walk it) and `walk` (single node / node list). -/
inductive Job where
  | gen (name : String)
  | node (n : Node)
  | nodes (ns : List Node)

/-- The recursive core of `generate` / `walk`, fuel-indexed because the Go
source has no cycle guard on extends/include chains.  Every transcription
choice follows the source, in particular:
the top-level call discards the error of `g.walk(tree.Root())`;
the stack push of the root-level `generate` is never popped (the deferred pop
is registered only when the pushed frame is not the bottom of the stack);
the walks of for-loop bodies, if bodies and else bodies discard errors. -/
def run (loader : Loader) : Nat → Generator → Job → Generator × Option String
  | 0, g, _ => (g, some "stickgen: recursion limit exceeded")
  | fuel+1, g, .gen name =>
    match loader name with
    | .error e => (g, some e)
    | .ok tree =>
      let g1 := { g with name := name, stack := g.stack ++ [name] }
      let g2 := { g1 with root := g1.stack.length == 1 }
      let g3 := (run loader fuel g2 (.node tree)).1
      if g2.root then (g3, none)
      else
        let st := g3.stack.dropLast
        ({ g3 with stack := st, name := st.getLastD "", root := st.length == 1 }, none)
  | fuel+1, g, .node n =>
    match n with
    | .module parent bodyN =>
      match parent with
      | none => run loader fuel g (.node bodyN)
      | some pexpr =>
        match evaluate pexpr with
        | none => (g, some "Unable to evaluate extends reference")
        | some pname =>
          match run loader fuel g (.gen pname) with
          | (g', some e) => (g', some e)
          | (g', none) => run loader fuel g' (.node bodyN)
    | .body cs => run loader fuel g (.nodes cs)
    | .includeNode tplE =>
      match evaluate tplE with
      | none => (g, some "Unable to evaluate include reference")
      | some tname => run loader fuel g (.gen tname)
    | .text data line off =>
      let g := addImport g "fmt"
      (write g (lineComment g line off ++ indent g.tabs
        ++ "fmt.Fprint(output, `" ++ data ++ "`)\n"), none)
    | .print x line off =>
      match walkExpr g x with
      | .error e => (g, some e)
      | .ok v =>
        let g := addImport g "fmt"
        let g := write g (lineComment g line off)
        if v.isFunction then
          let g := write g (indent g.tabs ++ "\x7b\n")
          let g := { g with tabs := g.tabs + 1 }
          let g := write g (indent g.tabs ++ v.body ++ "\n")
          let g :=
            if v.hasError then
              let g := write g (indent g.tabs ++ "if err == nil \x7b\n")
              let g := { g with tabs := g.tabs + 1 }
              let g := write g (indent g.tabs ++ "fmt.Fprint(output, "
                ++ v.resultantName ++ ")\n")
              let g := { g with tabs := g.tabs - 1 }
              write g (indent g.tabs ++ "\x7d\n")
            else
              write g (indent g.tabs ++ "fmt.Fprint(output, " ++ v.resultantName ++ ")\n")
          let g := { g with tabs := g.tabs - 1 }
          (write g (indent g.tabs ++ "\x7d\n"), none)
        else
          (write g (indent g.tabs ++ "fmt.Fprint(output, " ++ v.resultantName ++ ")\n"), none)
    | .block bname bodyN line off =>
      let g := addImport g "fmt"
      let g := { g with blocks := blocksInsert bname ⟨g.stack.headD "", bname, bodyN⟩ g.blocks }
      if g.root then (g, none)
      else
        (write g (lineComment g line off ++ indent g.tabs ++ "block"
          ++ titleize (g.stack.headD "") ++ titleize bname ++ "(env, output, ctx)\n"), none)
    | .forN key0 val x bodyN line off =>
      match walkExpr g x with
      | .error e => (g, some e)
      | .ok nameE =>
        let key := if key0 != "" then key0 else "_"
        let g := if key0 != "" then { g with args := argsInsert key0 g.args } else g
        let g := { g with args := argsInsert val g.args }
        let g := write g (lineComment g line off ++ indent g.tabs
          ++ "stick.Iterate(" ++ nameE.resultantName ++ ", func(" ++ key ++ ", " ++ val
          ++ " stick.Value, loop stick.Loop) (brk bool, err error) \x7b\n")
        let g := { g with tabs := g.tabs + 1 }
        let g := (run loader fuel g (.node bodyN)).1
        let g := { g with args := (g.args.erase val).erase key }
        let g := write g (indent g.tabs ++ "return false, nil\n")
        let g := { g with tabs := g.tabs - 1 }
        (write g (indent g.tabs ++ "\x7d)\n"), none)
    | .ifN cond bodyN elseN line off =>
      match walkExpr g cond with
      | .error e => (g, some e)
      | .ok condE =>
        let g := write g (lineComment g line off)
        let errCheck := if condE.isFunction && condE.hasError then "err == nil && " else ""
        let g :=
          if condE.isFunction then
            let g := write g (indent g.tabs ++ "\x7b\n" ++ indent g.tabs ++ "\t"
              ++ condE.body ++ "\n")
            { g with tabs := g.tabs + 1 }
          else g
        let g := write g (indent g.tabs ++ "if " ++ errCheck ++ "stick.CoerceBool("
          ++ condE.resultantName ++ ") \x7b\n")
        let g := { g with tabs := g.tabs + 1 }
        let g := (run loader fuel g (.node bodyN)).1
        let g := { g with tabs := g.tabs - 1 }
        let g :=
          if (allChildren elseN).length > 0 then
            let g := write g (indent g.tabs ++ "\x7d else \x7b\n")
            let g := { g with tabs := g.tabs + 1 }
            let g := (run loader fuel g (.node elseN)).1
            { g with tabs := g.tabs - 1 }
          else g
        let g := write g (indent g.tabs ++ "\x7d\n")
        let g :=
          if condE.isFunction then
            let g := { g with tabs := g.tabs - 1 }
            write g (indent g.tabs ++ "\x7d\n")
          else g
        (g, none)
    | .other => (g, none)
  | fuel+1, g, .nodes ns =>
    match ns with
    | [] => (g, none)
    | c :: rest =>
      match run loader fuel g (.node c) with
      | (g', some e) => (g', some e)
      | (g', none) => run loader fuel g' (.nodes rest)

/-- `generate`: load, parse and walk one template by name. -/
def generate (fuel : Nat) (loader : Loader) (g : Generator) (name : String) :
    Generator × Option String :=
  run loader fuel g (.gen name)

/-- `walk` on a single node. -/
def walk (fuel : Nat) (loader : Loader) (g : Generator) (n : Node) :
    Generator × Option String :=
  run loader fuel g (.node n)

/-- One registered block renderer closure as invoked by `output`: reset the
buffer, emit the function header, walk the block body (error discarded),
emit the closing brace. -/
def renderBlock (fuel : Nat) (loader : Loader) (g : Generator) (b : Block) : Generator :=
  let g := { g with out := "" }
  let g := write g ("func block" ++ titleize b.rootName ++ titleize b.bname
    ++ "(env *stick.Env, output io.Writer, ctx map[string]stick.Value) \x7b\n")
  let g := (run loader fuel g (.node b.bodyN)).1
  write g "\x7d"

/-- `output`: capture the body text, render every registered block into the
reused buffer, then assemble the compiled unit.  The import list and the
template name are read after the block loop, as in the source. -/
def output (fuel : Nat) (loader : Loader) (g : Generator) : Generator × String :=
  let body := g.out
  let step := fun (acc : Generator × List String) (kv : String × Block) =>
    let g2 := renderBlock fuel loader acc.1 kv.2
    (g2, acc.2 ++ [g2.out])
  let gfs := g.blocks.foldl step (g, ([] : List String))
  let importsList := gfs.1.imports.map (fun v => "\"" ++ v ++ "\"")
  (gfs.1, "// Code generated by stickgen.\n// DO NOT EDIT!\n\npackage " ++ gfs.1.pkgName
    ++ "\n\nimport (\n\t" ++ String.intercalate "\n\t" importsList
    ++ "\n)\n\n" ++ String.intercalate "\n" gfs.2
    ++ "\n\nfunc Template" ++ titleize gfs.1.name
    ++ "(env *stick.Env, output io.Writer, ctx map[string]stick.Value) \x7b\n"
    ++ body ++ "\x7d\n")

/-- `NewGenerator`. -/
def NewGenerator (pkgName : String) : Generator :=
  { pkgName := pkgName, out := "", name := "",
    imports := ["github.com/tyler-sommer/stick", "io"],
    blocks := [], args := [], root := true, stack := [], tabs := 1 }

/-- The exported `Generate`: run `generate`, and on failure return the empty
string with the error, otherwise the assembled output. -/
def Generate (fuel : Nat) (loader : Loader) (g : Generator) (name : String) :
    Generator × String × Option String :=
  match generate fuel loader g name with
  | (g', some e) => (g', "", some e)
  | (g', none) =>
    let gs := output fuel loader g'
    (gs.1, gs.2, none)

/-! Concrete template fixtures used to evaluate the compiler on closed
inputs, and the scope-safety predicate used by the local-variable
preservation theorem. -/

/-- A loader with no templates. -/
def ldrNone : Loader := fun _ => .error "template not found"

/-- Template `hello`: literal text only. -/
def tplHello : Node := Node.module none (Node.body [Node.text "Hello, World!" 1 0])

/-- Loader serving only `hello`. -/
def ldrHello : Loader := fun n =>
  if n = "hello" then .ok tplHello else .error "template not found"

/-- A second, syntactically distinct loader serving the same source. -/
def ldrHelloB : Loader := fun n =>
  if n = "hello" then .ok tplHello else .error "template not found"

/-- Template `t`: extends a non-literal (dynamic) target. -/
def tplExtendsDyn : Node :=
  Node.module (some (Expr.name "dyn")) (Node.body [Node.text "B" 2 0])

/-- Loader serving only `t`. -/
def ldrExtendsDyn : Loader := fun n =>
  if n = "t" then .ok tplExtendsDyn else .error "template not found"

/-- Template `t7`: prints `a + b`, an unsupported binary operator. -/
def tplPlusPrint : Node :=
  Node.module none (Node.body [Node.print (Expr.binary "+" (Expr.name "a") (Expr.name "b")) 1 3])

/-- Loader serving only `t7`. -/
def ldrPlusPrint : Loader := fun n =>
  if n = "t7" then .ok tplPlusPrint else .error "template not found"

/-- Template `t4`: includes a non-literal (dynamic) target, then text. -/
def tplIncludeDyn : Node :=
  Node.module none (Node.body [Node.includeNode (Expr.name "dyn"), Node.text "after" 2 0])

/-- Loader serving only `t4`. -/
def ldrIncludeDyn : Loader := fun n =>
  if n = "t4" then .ok tplIncludeDyn else .error "template not found"

/-- Templates `a` and `c`: two separate roots that both define a block `b`. -/
def ldrTwoRoots : Loader := fun n =>
  if n = "a" then .ok (Node.module none (Node.body
    [Node.block "b" (Node.body [Node.text "A" 1 0]) 1 0]))
  else if n = "c" then .ok (Node.module none (Node.body
    [Node.block "b" (Node.body [Node.text "C" 1 0]) 1 0]))
  else .error "template not found"

/-- Generator state after compiling root `a`. -/
def genA : Generator := (Generate 32 ldrTwoRoots (NewGenerator "views") "a").1

/-- Generator state after compiling root `a` and then root `c`. -/
def genAC : Generator := (Generate 32 ldrTwoRoots genA "c").1

/-- Nested for-loops that bind the same value identifier `x`; the print
comes after the inner loop, inside the outer body. -/
def nestedFor : Node :=
  Node.forN "" "x" (Expr.name "items")
    (Node.body [ Node.forN "" "x" (Expr.name "inner") (Node.body []) 2 0,
                 Node.print (Expr.name "x") 3 0 ]) 1 0

/-- Generator state as `generate` prepares it for walking template `t3`. -/
def gT3 : Generator :=
  { NewGenerator "views" with name := "t3", stack := ["t3"], root := true }

/-- Generator state as `generate` prepares it for walking template `t5`. -/
def gT5 : Generator :=
  { NewGenerator "views" with name := "t5", stack := ["t5"], root := true }

/-- A one-argument function call expression, translated to a scoped but
infallible evaluation. -/
def eFunc : Expr := Expr.func "f" [Expr.name "x"]

mutual

/-- Scope safety of a node against an active-local set: no include and no
extends occurs (their targets would be re-walked through the loader), and no
for-loop binds an identifier that is already active, nor shadows the discard
placeholder.  Under this condition walking the node preserves `args`. -/
def scopeSafeN (args : List String) : Node → Bool
  | .module parent bodyN => parent.isNone && scopeSafeN args bodyN
  | .body cs => scopeSafeL args cs
  | .includeNode _ => false
  | .text _ _ _ => true
  | .print _ _ _ => true
  | .block _ _ _ _ => true
  | .forN key0 val _ bodyN _ _ =>
    let argsK := if key0 != "" then argsInsert key0 args else args
    let argsV := argsInsert val argsK
    !(args.contains val)
      && (if key0 != "" then !(args.contains key0) else !(args.contains "_"))
      && scopeSafeN argsV bodyN
  | .ifN _ bodyN elseN _ _ => scopeSafeN args bodyN && scopeSafeN args elseN
  | .other => true

/-- Scope safety of a node list, child by child. -/
def scopeSafeL (args : List String) : List Node → Bool
  | [] => true
  | c :: rest => scopeSafeN args c && scopeSafeL args rest

end

/-- Scope safety of a work item: template loads are never scope-safe. -/
def jobSafe (args : List String) : Job → Bool
  | .gen _ => false
  | .node n => scopeSafeN args n
  | .nodes ns => scopeSafeL args ns

/-- Generator state as `generate` prepares it for walking template `t`. -/
def gT1 : Generator :=
  { NewGenerator "views" with name := "t", stack := ["t"], root := true }

/-- Generator state as `generate` prepares it for walking template `t7`. -/
def gT7 : Generator :=
  { NewGenerator "views" with name := "t7", stack := ["t7"], root := true }

/-- First compilation of `hello` on a fresh generator. -/
def c6first : Generator × String × Option String :=
  Generate 32 ldrHello (NewGenerator "views") "hello"

/-- Second compilation of `hello` on the same generator instance. -/
def c6second : Generator × String × Option String :=
  Generate 32 ldrHello c6first.1 "hello"

/-- The translation of the function-call expression `f(x)` at one tab of
indentation: scoped (`isFunction`) but not fallible (`hasError = false`). -/
def c5val : EvaluatedExpr :=
  { body := "\n\t\tvar fnval stick.Value = \"\"\n\t\tif fn, ok := env.Functions[\"f\"]; ok \x7b\n\t\t\tfnval = fn(nil, ctx[\"x\"])\n\t\t\x7d",
    isFunction := true, hasError := false, resultantName := "fnval" }

/-- The translation of the attribute access `user.name`: fallible, with the
`stick.GetAttr` preamble. -/
def c8v : EvaluatedExpr :=
  { body := "val, err := stick.GetAttr(ctx[\"user\"], \"name\")",
    isFunction := true, hasError := true, resultantName := "val" }

/-- Generator state as `generate` prepares it for walking template `t4`. -/
def gT4 : Generator :=
  { NewGenerator "views" with name := "t4", stack := ["t4"], root := true }

/-- A generator state with the active local `y`, as inside a loop body. -/
def gY : Generator :=
  { NewGenerator "views" with name := "ty", stack := ["ty"], args := ["y"] }

/-- A for-loop binding `x` whose body prints `x`: scope-safe against the
active set containing only `y`. -/
def forWitnessNode : Node :=
  Node.forN "" "x" (Expr.name "items") (Node.body [Node.print (Expr.name "x") 2 0]) 1 0

end Stickgen

namespace Stickgen

/-! Theorems.  Each claim of the specification is settled by one theorem
below; counterexample theorems evaluate the compiler at closed inputs. -/

set_option maxRecDepth 400000

/-- C1: the claim states that any error arising during the AST walk
propagates to the caller of `Generate` and aborts the whole call with no
partial output.  The code instead discards the return value of
`g.walk(tree.Root())` inside `generate`: on the concrete template `t`,
which extends a non-literal target, the walk returns the unresolvable
extends error, yet `generate` reports success and `Generate` returns a
non-empty compiled unit. -/
theorem c1_walk_error_discarded :
    (walk 32 ldrExtendsDyn gT1 tplExtendsDyn).2 = some "Unable to evaluate extends reference"
    ∧ (generate 32 ldrExtendsDyn (NewGenerator "views") "t").2 = none
    ∧ (Generate 32 ldrExtendsDyn (NewGenerator "views") "t").2.2 = none
    ∧ (Generate 32 ldrExtendsDyn (NewGenerator "views") "t").2.1 ≠ "" :=
  ⟨rfl, rfl, rfl, by decide⟩

/-- C7: the claim states that `UnsupportedConstruct` errors arise exactly
for method-call attributes, non-unary function calls and non-equality
binary operators, with messages naming the construct, and that each such
error aborts the compile call.  The three messages are as claimed, but the
abort is not: on template `t7`, printing `a + b`, the walker returns the
unsupported-operator error and `generate` discards it, so `Generate`
succeeds. -/
theorem c7_unsupported_errors_swallowed :
    walkExpr (NewGenerator "views") (Expr.getAttr (Expr.name "u") (Expr.str "m") [Expr.name "a"])
      = .error "Method calls are currently unsupported."
    ∧ walkExpr (NewGenerator "views") (Expr.func "f" [Expr.name "a", Expr.name "b"])
      = .error "Function currently calls only support a single argument."
    ∧ walkExpr (NewGenerator "views") (Expr.binary "+" (Expr.name "a") (Expr.name "b"))
      = .error "stickgen: unsupported binary operator: +"
    ∧ (walk 32 ldrPlusPrint gT7 tplPlusPrint).2 = some "stickgen: unsupported binary operator: +"
    ∧ (Generate 32 ldrPlusPrint (NewGenerator "views") "t7").2.2 = none :=
  ⟨rfl, rfl, rfl, rfl, rfl⟩

/-- C9: `titleize` strips non-word characters (underscore included),
title-cases the separated segments and concatenates them, so the distinct
template names `foo.bar`, `foo-bar` and `foo_bar` all collapse to the same
identifier fragment `FooBar`. -/
theorem c9_titleize_collision :
    titleize "foo.bar" = "FooBar" ∧ titleize "foo-bar" = "FooBar"
    ∧ titleize "foo_bar" = "FooBar" ∧ ("foo.bar" : String) ≠ "foo-bar" :=
  ⟨rfl, rfl, rfl, by decide⟩

/-- C2 counterexample: blocks are keyed by name alone, not by the pair of
inheritance root and name.  Compiling root `a` and then root `c` on the
same instance, each defining a block `b`, leaves a single registry entry
(pair keying would keep two), and its stored root label is still `a`, the
first template ever pushed. -/
theorem c2_blocks_pair_key_refuted :
    genAC.blocks.map (fun kv => (kv.1, kv.2.rootName)) = [("b", "a")]
    ∧ genAC.blocks.length = 1 :=
  ⟨rfl, rfl⟩

/-- C3 counterexample: after an inner for-loop re-binding `x` finishes, the
deletion removes `x` from the active set outright, so a later reference in
the outer loop body compiles to the context lookup, although the set in
force before the inner loop held `x` and would have produced a direct
reference. -/
theorem c3_shadowed_binding_refuted :
    (walk 32 ldrNone gT3 nestedFor).1.out =
      "\t// line 1, offset 0 in t3\n\tstick.Iterate(ctx[\"items\"], func(_, x stick.Value, loop stick.Loop) (brk bool, err error) \x7b\n\t\t// line 2, offset 0 in t3\n\t\tstick.Iterate(ctx[\"inner\"], func(_, x stick.Value, loop stick.Loop) (brk bool, err error) \x7b\n\t\t\treturn false, nil\n\t\t\x7d)\n\t\t// line 3, offset 0 in t3\n\t\tfmt.Fprint(output, ctx[\"x\"])\n\t\treturn false, nil\n\t\x7d)\n"
    ∧ (walk 32 ldrNone gT3 nestedFor).1.args = []
    ∧ walkExpr { gT3 with args := ["x"] } (Expr.name "x") = .ok (newNameExpr "x") :=
  ⟨rfl, rfl, rfl⟩

/-- C5 counterexample: printing the function call `f(x)` translates to an
expression that is not fallible, yet its emission is a scoped block with
the preamble, not the direct write of the result reference that the claim
prescribes for non-fallible expressions. -/
theorem c5_scoped_infallible_refuted :
    walkExpr gT5 eFunc = .ok c5val
    ∧ c5val.hasError = false
    ∧ (walk 1 ldrNone gT5 (Node.print eFunc 1 0)).1.out =
      "\t// line 1, offset 0 in t5\n\t\x7b\n\t\t\n\t\tvar fnval stick.Value = \"\"\n\t\tif fn, ok := env.Functions[\"f\"]; ok \x7b\n\t\t\tfnval = fn(nil, ctx[\"x\"])\n\t\t\x7d\n\t\tfmt.Fprint(output, fnval)\n\t\x7d\n"
    ∧ (walk 1 ldrNone gT5 (Node.print eFunc 1 0)).1.out ≠
      "\t// line 1, offset 0 in t5\n\tfmt.Fprint(output, fnval)\n" :=
  ⟨rfl, rfl, rfl, by decide⟩

/-- C6 counterexample: both `Generate` calls for `hello` on one instance
succeed, the import sets agree, yet the outputs differ byte-wise: the
output buffer is not reset between calls, so the second unit contains the
first body twice. -/
theorem c6_second_call_not_identical :
    c6first.2.2 = none ∧ c6second.2.2 = none
    ∧ c6first.1.imports = c6second.1.imports
    ∧ c6first.2.1 ≠ c6second.2.1 :=
  ⟨rfl, rfl, rfl, by decide⟩

/-- C8: every successful expression translation that is marked fallible
carries a non-empty preamble: the only fallible result is the attribute
access, whose preamble is the generated `stick.GetAttr` binding. -/
theorem c8_fallible_implies_preamble (g : Generator) (e : Expr) (v : EvaluatedExpr)
    (h : walkExpr g e = .ok v) (hf : v.hasError = true) : v.body ≠ "" := by
  cases e with
  | name n =>
    unfold walkExpr at h
    split at h <;> · injection h with h; rw [← h] at hf; exact Bool.noConfusion hf
  | str t =>
    unfold walkExpr at h
    injection h with h; rw [← h] at hf; exact Bool.noConfusion hf
  | getAttr cont attr args =>
    unfold walkExpr at h
    split at h
    · exact Except.noConfusion h
    · cases ha : walkExpr g attr with
      | error e2 => rw [ha] at h; exact Except.noConfusion h
      | ok a =>
        rw [ha] at h
        cases hc : walkExpr g cont with
        | error e2 => rw [hc] at h; exact Except.noConfusion h
        | ok nm =>
          rw [hc] at h
          injection h with h
          rw [← h]
          intro hb
          have hlen := congrArg String.length hb
          simp only [String.length_append] at hlen
          have h27 : (0:Nat) < ("val, err := stick.GetAttr(" : String).length := by decide
          have h0 : ("" : String).length = 0 := by decide
          omega
  | func f args =>
    unfold walkExpr at h
    split at h
    · rename_i a0
      cases hw : walkExpr g a0 with
      | error e2 => rw [hw] at h; exact Except.noConfusion h
      | ok arg =>
        rw [hw] at h
        injection h with h
        rw [← h] at hf; exact Bool.noConfusion hf
    · exact Except.noConfusion h
  | binary op l r =>
    unfold walkExpr at h
    split at h
    · cases hl : walkExpr g l with
      | error e2 => rw [hl] at h; exact Except.noConfusion h
      | ok le =>
        rw [hl] at h
        cases hr : walkExpr g r with
        | error e2 => rw [hr] at h; exact Except.noConfusion h
        | ok re =>
          rw [hr] at h
          injection h with h
          rw [← h] at hf; exact Bool.noConfusion hf
    · exact Except.noConfusion h
  | other =>
    unfold walkExpr at h
    injection h with h; rw [← h] at hf; exact Bool.noConfusion hf

/-- C8 witness: the translation of the attribute access `user.name` is
fallible and its preamble is non-empty. -/
theorem c8_fallible_implies_preamble_witness :
    walkExpr (NewGenerator "p") (Expr.getAttr (Expr.name "user") (Expr.str "name") []) = .ok c8v
    ∧ c8v.hasError = true ∧ c8v.body ≠ "" :=
  ⟨rfl, rfl, c8_fallible_implies_preamble (NewGenerator "p")
    (Expr.getAttr (Expr.name "user") (Expr.str "name") []) c8v rfl rfl⟩

/-- When the recursive `generate` fails, the failure happened in its own
load/read/parse step, before any state mutation, so the returned state is
the input state. -/
theorem run_gen_error_state (fuel : Nat) (loader : Loader) (g : Generator)
    (name : String) (gr : Generator) (msg : String)
    (h : run loader fuel g (.gen name) = (gr, some msg)) : gr = g := by
  cases fuel with
  | zero => injection h with h1 h2; exact h1.symm
  | succ f =>
    unfold run at h
    cases hl : loader name with
    | error e =>
      simp only [hl, Prod.mk.injEq] at h
      exact h.1.symm
    | ok tree =>
      simp only [hl] at h
      split at h <;> simp only [Prod.mk.injEq] at h <;> exact absurd h.2 (by simp)

/-- C10: whenever `Generate` returns an error, the returned output string
is empty and the generator state equals the state at the failure point: no
mutation is rolled back, so everything the generator accumulated before and
during the call is still observable by later calls.  Since the walker
errors are discarded inside `generate`, every surviving failure comes from
the load/read/parse step, which precedes all mutations, and the retained
state is the input state itself. -/
theorem c10_failed_generate_state (fuel : Nat) (loader : Loader) (g : Generator)
    (name : String) (g' : Generator) (s : String) (e : String)
    (h : Generate fuel loader g name = (g', s, some e)) : s = "" ∧ g' = g := by
  unfold Generate generate at h
  rcases hr : run loader fuel g (.gen name) with ⟨gr, er⟩
  rw [hr] at h
  cases er with
  | none =>
    simp only [Prod.mk.injEq] at h
    exact absurd h.2.2 (by simp)
  | some msg =>
    simp only [Prod.mk.injEq] at h
    exact ⟨h.2.1.symm, h.1 ▸ run_gen_error_state fuel loader g name gr msg hr⟩

/-- C10 witness: a `Generate` call on a missing template fails, returns the
empty output string, and leaves the fresh generator untouched. -/
theorem c10_failed_generate_state_witness :
    (Generate 32 ldrNone (NewGenerator "views") "missing").2.1 = ""
    ∧ (Generate 32 ldrNone (NewGenerator "views") "missing").1 = NewGenerator "views" := by
  have h := c10_failed_generate_state 32 ldrNone (NewGenerator "views") "missing"
    (Generate 32 ldrNone (NewGenerator "views") "missing").1
    (Generate 32 ldrNone (NewGenerator "views") "missing").2.1
    "template not found" (by rfl)
  exact ⟨h.1, h.2⟩

/-- Looking up the key just stored by the Go map store finds the new value. -/
theorem blocksInsert_lookup_self (k : String) (b : Block) (l : List (String × Block)) :
    (blocksInsert k b l).lookup k = some b := by
  induction l with
  | nil => simp [blocksInsert, List.lookup]
  | cons kv rest ih =>
    obtain ⟨k', b'⟩ := kv
    by_cases h : k' = k
    · subst h
      simp [blocksInsert, List.lookup]
    · have hbe : (k == k') = false := beq_eq_false_iff_ne.mpr (fun hh => h hh.symm)
      simp [blocksInsert, h, List.lookup, hbe, ih]

/-- The Go map store leaves every other key unchanged. -/
theorem blocksInsert_lookup_ne (k k' : String) (hne : k' ≠ k) (b : Block)
    (l : List (String × Block)) : (blocksInsert k b l).lookup k' = l.lookup k' := by
  have hbe : (k' == k) = false := beq_eq_false_iff_ne.mpr hne
  induction l with
  | nil => simp [blocksInsert, List.lookup, hbe]
  | cons kv rest ih =>
    obtain ⟨k2, b2⟩ := kv
    by_cases h : k2 = k
    · subst h
      simp [blocksInsert, List.lookup, hbe]
    · simp only [blocksInsert, if_neg h, List.lookup]
      cases hbe2 : (k' == k2) <;> simp [ih]

/-- C2 amended: compiling a block statement registers its renderer under
the block name alone; the stored root label is the bottom of the stack at
registration time, a re-registration under the same name overwrites the
prior entry, and every other key is untouched.  Within one compile call
the inheritance root is fixed, so this coincides with keying by the pair
of root and name, and the most-derived definition in an extends chain
wins; across `Generate` calls on one instance, same-named blocks from
different roots collide on the shared key. -/
theorem c2_block_name_keyed_overwrite (fuel : Nat) (loader : Loader) (g : Generator)
    (bname : String) (bodyN : Node) (line off : Nat) :
    (((walk (fuel+1) loader g (.block bname bodyN line off)).1).blocks).lookup bname
        = some ⟨g.stack.headD "", bname, bodyN⟩
    ∧ (∀ k, k ≠ bname →
        (((walk (fuel+1) loader g (.block bname bodyN line off)).1).blocks).lookup k
          = g.blocks.lookup k) := by
  constructor
  · unfold walk
    simp only [run]
    split <;> simp [addImport, write, blocksInsert_lookup_self]
  · intro k hk
    unfold walk
    simp only [run]
    split <;> simp [addImport, write, blocksInsert_lookup_ne bname k hk]

/-- C2 amended witness: registering block `b` on the generator state left
by compiling root `a` overwrites the registry entry for `b` but leaves the
absent key `zz` untouched. -/
theorem c2_block_name_keyed_overwrite_witness :
    (((walk 1 ldrNone genA (Node.block "b" (Node.body []) 1 0)).1).blocks).lookup "b"
        = some ⟨"a", "b", Node.body []⟩
    ∧ (((walk 1 ldrNone genA (Node.block "b" (Node.body []) 1 0)).1).blocks).lookup "zz"
        = genA.blocks.lookup "zz" :=
  ⟨(c2_block_name_keyed_overwrite 0 ldrNone genA "b" (Node.body []) 1 0).1,
   (c2_block_name_keyed_overwrite 0 ldrNone genA "b" (Node.body []) 1 0).2 "zz" (by decide)⟩

/-- Only a string literal resolves statically. -/
theorem evaluate_none_of_not_str (e : Expr) (h : ∀ s, e ≠ .str s) : evaluate e = none := by
  cases e <;> first | rfl | exact absurd rfl (h _)

/-- C4 amended: a non-literal extends or include target makes the walk of
that statement fail with the corresponding unresolvable-reference error
and leaves the state untouched (the error is then discarded by the
top-level `generate`, so the compile call itself still succeeds); a
literal target is compiled through `generate`, before the current body for
extends and inline at the current position for include. -/
theorem c4_static_reference_dispatch :
    (∀ (fuel : Nat) (loader : Loader) (g : Generator) (e : Expr) (bodyN : Node),
      (∀ s, e ≠ Expr.str s) →
      walk (fuel+1) loader g (.module (some e) bodyN)
        = (g, some "Unable to evaluate extends reference"))
    ∧ (∀ (fuel : Nat) (loader : Loader) (g : Generator) (e : Expr),
      (∀ s, e ≠ Expr.str s) →
      walk (fuel+1) loader g (.includeNode e)
        = (g, some "Unable to evaluate include reference"))
    ∧ (∀ (fuel : Nat) (loader : Loader) (g : Generator) (s : String) (bodyN : Node),
      walk (fuel+1) loader g (.module (some (Expr.str s)) bodyN)
        = (match generate fuel loader g s with
           | (g', some e) => (g', some e)
           | (g', none) => walk fuel loader g' bodyN))
    ∧ (∀ (fuel : Nat) (loader : Loader) (g : Generator) (s : String),
      walk (fuel+1) loader g (.includeNode (Expr.str s)) = generate fuel loader g s) := by
  refine ⟨?_, ?_, ?_, ?_⟩
  · intro fuel loader g e bodyN h
    unfold walk
    simp only [run, evaluate_none_of_not_str e h]
  · intro fuel loader g e h
    unfold walk
    simp only [run, evaluate_none_of_not_str e h]
  · intro fuel loader g s bodyN
    rfl
  · intro fuel loader g s
    rfl

/-- C4 amended witness: the dispatch evaluated at concrete targets, the
non-literal ones failing with the unresolvable-reference messages and the
literal one delegating to `generate`. -/
theorem c4_static_reference_dispatch_witness :
    walk 1 ldrNone (NewGenerator "p") (.module (some (Expr.name "dyn")) (Node.body []))
      = (NewGenerator "p", some "Unable to evaluate extends reference")
    ∧ walk 1 ldrNone (NewGenerator "p") (.includeNode (Expr.name "dyn"))
      = (NewGenerator "p", some "Unable to evaluate include reference")
    ∧ walk 1 ldrHello (NewGenerator "p") (.includeNode (Expr.str "missing"))
      = generate 0 ldrHello (NewGenerator "p") "missing" :=
  ⟨c4_static_reference_dispatch.1 0 ldrNone (NewGenerator "p") (Expr.name "dyn") (Node.body [])
      (fun _s hs => Expr.noConfusion hs),
   c4_static_reference_dispatch.2.1 0 ldrNone (NewGenerator "p") (Expr.name "dyn")
      (fun _s hs => Expr.noConfusion hs),
   c4_static_reference_dispatch.2.2.2 0 ldrHello (NewGenerator "p") "missing"⟩

/-- C4 counterexample: the claim says compile fails with an unresolvable
reference; on template `t4`, whose include target is dynamic, the walk
does return that error, but `Generate` still succeeds because `generate`
discards the walk result. -/
theorem c4_unresolvable_does_not_fail_compile :
    (walk 32 ldrIncludeDyn gT4 tplIncludeDyn).2 = some "Unable to evaluate include reference"
    ∧ (Generate 32 ldrIncludeDyn (NewGenerator "views") "t4").2.2 = none :=
  ⟨rfl, rfl⟩

/-- C5 amended: the print emission in closed form.  A scoped translation
(`isFunction`) is wrapped in a fresh block with its preamble, and the
write is guarded by `err == nil` exactly when the translation is also
fallible; a non-scoped translation is written directly. -/
theorem c5_print_emission (fuel : Nat) (loader : Loader) (g : Generator)
    (x : Expr) (line off : Nat) (v : EvaluatedExpr) (h : walkExpr g x = .ok v) :
    walk (fuel+1) loader g (.print x line off) =
      (write (addImport g "fmt") (lineComment g line off ++
        (if v.isFunction then
          indent g.tabs ++ "\x7b\n" ++ (indent (g.tabs+1) ++ v.body ++ "\n") ++
            (if v.hasError then
              indent (g.tabs+1) ++ "if err == nil \x7b\n"
                ++ (indent (g.tabs+2) ++ "fmt.Fprint(output, " ++ v.resultantName ++ ")\n")
                ++ (indent (g.tabs+1) ++ "\x7d\n")
            else indent (g.tabs+1) ++ "fmt.Fprint(output, " ++ v.resultantName ++ ")\n")
            ++ (indent g.tabs ++ "\x7d\n")
        else indent g.tabs ++ "fmt.Fprint(output, " ++ v.resultantName ++ ")\n")), none) := by
  unfold walk
  simp only [run, h]
  rcases v with ⟨vb, vf, ve, vr⟩
  cases vf <;> cases ve <;>
    simp [write, addImport, lineComment, String.append_assoc]

/-- C5 amended witness: printing the plain name `x` writes the context
lookup directly, with no scope and no guard. -/
theorem c5_print_emission_witness :
    walk 1 ldrNone gT5 (Node.print (Expr.name "x") 1 0)
      = (write (addImport gT5 "fmt")
          (lineComment gT5 1 0 ++ "\tfmt.Fprint(output, ctx[\"x\"])\n"), none) :=
  c5_print_emission 0 ldrNone gT5 (Expr.name "x") 1 0 (newNameExpr "ctx[\"x\"]") rfl

/-- C6 amended: compiling from unchanged source text on a fresh generator
instance is deterministic: two loaders that agree pointwise give identical
`Generate` results, byte for byte (the embedding renders the import list
in insertion order, so no import reordering arises). -/
theorem c6_fresh_instance_deterministic (fuel : Nat) (p name : String)
    (loader1 loader2 : Loader) (h : ∀ s, loader1 s = loader2 s) :
    Generate fuel loader1 (NewGenerator p) name
      = Generate fuel loader2 (NewGenerator p) name := by
  have hl : loader1 = loader2 := funext h
  rw [hl]

/-- C6 amended witness: two syntactically distinct but pointwise equal
loaders for `hello` produce identical compiled units. -/
theorem c6_fresh_instance_deterministic_witness :
    Generate 32 ldrHello (NewGenerator "views") "hello"
      = Generate 32 ldrHelloB (NewGenerator "views") "hello" :=
  c6_fresh_instance_deterministic 32 "views" "hello" ldrHello ldrHelloB (fun _ => rfl)

/-- Inserting a fresh key appends it. -/
theorem argsInsert_of_not_mem {k : String} {l : List String} (h : l.contains k = false) :
    argsInsert k l = l ++ [k] := by
  unfold argsInsert
  rw [if_neg (by rw [h]; simp)]

/-- A false containment gives non-membership. -/
theorem not_mem_of_contains_false {k : String} {l : List String}
    (h : l.contains k = false) : k ∉ l := by
  intro hm
  have h2 : l.contains k = true := List.elem_iff.mpr hm
  rw [h2] at h
  exact Bool.noConfusion h

/-- The active-set round trip of the for-loop case: insert the key (when
present) and the value, walk, then erase the value and the key; when
neither was active before, the original set returns. -/
theorem argsRoundTrip (args : List String) (key0 val : String)
    (hv : args.contains val = false)
    (hk : (if key0 != "" then args.contains key0 else args.contains "_") = false) :
    (((argsInsert val (if key0 != "" then argsInsert key0 args else args)).erase val).erase
      (if key0 != "" then key0 else "_")) = args := by
  have hvmem : val ∉ args := not_mem_of_contains_false hv
  by_cases hkey : key0 = ""
  · subst hkey
    simp only [bne_self_eq_false, Bool.false_eq_true, if_false] at hk ⊢
    rw [argsInsert_of_not_mem hv, List.erase_append_right _ hvmem,
      List.erase_cons_head, List.append_nil,
      List.erase_of_not_mem (not_mem_of_contains_false hk)]
  · have hbne : (key0 != "") = true := by simpa using hkey
    simp only [hbne, if_true] at hk ⊢
    have hkmem : key0 ∉ args := not_mem_of_contains_false hk
    rw [argsInsert_of_not_mem hk]
    by_cases hvk : val = key0
    · subst hvk
      have hins : argsInsert val (args ++ [val]) = args ++ [val] := by
        unfold argsInsert
        rw [if_pos (by simp)]
      rw [hins, List.erase_append_right _ hvmem, List.erase_cons_head, List.append_nil,
        List.erase_of_not_mem hkmem]
    · have hvk2 : (args ++ [key0]).contains val = false := by
        simp [hvk]
        exact fun hm => absurd hm hvmem
      rw [argsInsert_of_not_mem hvk2, List.append_assoc,
        List.erase_append_right _ hvmem]
      have h2 : ([key0] ++ [val]).erase val = [key0] := by
        have hc : ([key0] ++ [val]) = key0 :: [val] := rfl
        rw [hc, List.erase_cons]
        rw [if_neg (fun heq => hvk ((eq_of_beq heq).symm))]
        simp [List.erase_cons_head]
      rw [h2]
      rw [List.erase_append_right _ hkmem, List.erase_cons_head, List.append_nil]

/-- Writing output text does not change the active-local set. -/
theorem write_args (g : Generator) (s : String) : (write g s).args = g.args := rfl

/-- Adding an import does not change the active-local set. -/
theorem addImport_args (g : Generator) (n : String) : (addImport g n).args = g.args := rfl

set_option maxHeartbeats 4000000 in
/-- Walking any scope-safe work item preserves the active-local set: the
only statements that touch it are for-loops, which insert their key and
value identifiers for the body and erase them afterwards. -/
theorem run_args_preserved :
    ∀ (fuel : Nat) (loader : Loader) (g : Generator) (j : Job),
      jobSafe g.args j = true → ((run loader fuel g j).1).args = g.args := by
  intro fuel
  induction fuel with
  | zero => intro loader g j h; rfl
  | succ f ih =>
    intro loader g j h
    match j with
    | .gen name => exact absurd h (by simp [jobSafe])
    | .nodes [] => rfl
    | .nodes (c :: rest) =>
      rw [jobSafe, scopeSafeL, Bool.and_eq_true] at h
      simp only [run]
      rcases hr : run loader f g (Job.node c) with ⟨g', er⟩
      have hg' : g'.args = g.args := by
        have hx := ih loader g (.node c) (by rw [jobSafe]; exact h.1)
        rw [hr] at hx; exact hx
      cases er with
      | some e => exact hg'
      | none =>
        have hx := ih loader g' (.nodes rest) (by rw [jobSafe, hg']; exact h.2)
        rw [hx, hg']
    | .node n =>
      cases n with
      | module parent bodyN =>
        cases parent with
        | none =>
          rw [jobSafe, scopeSafeN] at h
          simp only [Option.isNone_none, Bool.true_and] at h
          simp only [run]
          exact ih loader g (.node bodyN) (by rw [jobSafe]; exact h)
        | some pexpr =>
          rw [jobSafe, scopeSafeN] at h
          simp at h
      | body cs =>
        rw [jobSafe, scopeSafeN] at h
        simp only [run]
        exact ih loader g (.nodes cs) (by rw [jobSafe]; exact h)
      | includeNode tplE =>
        rw [jobSafe, scopeSafeN] at h
        exact absurd h (by simp)
      | text data line off => rfl
      | print x line off =>
        cases hw : walkExpr g x with
        | error e => simp only [run, hw]
        | ok v =>
          rcases v with ⟨vb, vf, ve, vr⟩
          cases vf <;> cases ve <;> simp only [run, hw] <;> rfl
      | block bname bodyN line off =>
        simp only [run]
        split <;> rfl
      | other => rfl
      | forN key0 val x bodyN line off =>
        rw [jobSafe, scopeSafeN] at h
        simp only [Bool.and_eq_true] at h
        obtain ⟨⟨hv, hk⟩, hbody⟩ := h
        cases hw : walkExpr g x with
        | error e => simp only [run, hw]
        | ok nameE =>
          simp only [run, hw]
          by_cases hkb : (key0 != "") = true
          · simp only [Bool.not_eq_true'] at hv
            simp only [hkb, if_true] at hbody
            simp [hkb] at hk
            simp only [hkb, if_true]
            rw [ih loader _ (Job.node bodyN) ?hsafe1]
            case hsafe1 =>
              simp only [jobSafe]
              exact hbody
            have hrt := argsRoundTrip g.args key0 val hv (by simp [hkb]; exact hk)
            simp only [hkb, if_true] at hrt
            exact hrt
          · simp only [Bool.not_eq_true'] at hv
            simp only [hkb, if_false] at hbody
            simp [hkb] at hk
            simp only [hkb, if_false]
            rw [ih loader _ (Job.node bodyN) ?hsafe2]
            case hsafe2 =>
              simp only [jobSafe]
              exact hbody
            have hrt := argsRoundTrip g.args key0 val hv (by simp [hkb]; exact hk)
            simp only [hkb, if_false] at hrt
            exact hrt
      | ifN cond bodyN elseN line off =>
        rw [jobSafe, scopeSafeN, Bool.and_eq_true] at h
        cases hw : walkExpr g cond with
        | error e => simp only [run, hw]
        | ok condE =>
          simp only [run, hw]
          by_cases helse : (allChildren elseN).length > 0
          · rw [if_pos helse]
            rw [ih loader _ (Job.node elseN) ?hsE]
            case hsE =>
              simp only [jobSafe]
              rw [ih loader _ (Job.node bodyN) ?hsB1]
              case hsB1 =>
                simp only [jobSafe, write_args, addImport_args, apply_ite Generator.args,
                  ite_self]
                exact h.1
              simp only [write_args, addImport_args, apply_ite Generator.args, ite_self]
              exact h.2
            rw [ih loader _ (Job.node bodyN) ?hsB2]
            case hsB2 =>
              simp only [jobSafe, write_args, addImport_args, apply_ite Generator.args,
                ite_self]
              exact h.1
            simp only [write_args, addImport_args, apply_ite Generator.args, ite_self]
          · rw [if_neg helse]
            rw [ih loader _ (Job.node bodyN) ?hsB3]
            case hsB3 =>
              simp only [jobSafe, write_args, addImport_args, apply_ite Generator.args,
                ite_self]
              exact h.1
            simp only [write_args, addImport_args, apply_ite Generator.args, ite_self]

/-- The insertion used for loop locals makes the key active. -/
theorem argsInsert_contains_self (k : String) (l : List String) :
    (argsInsert k l).contains k = true := by
  unfold argsInsert
  split
  · rename_i hc
    exact hc
  · exact List.elem_iff.mpr (by simp)

/-- C3 amended: for every scope-safe node (no include or extends, and no
for-loop re-binding an already-active identifier), walking the node leaves
the active-local set exactly as it was, so loop locals do not leak to
sibling or outer statements; and while a loop body is compiled the bound
value identifier is active, resolving as a direct reference.  When an
inner loop re-binds an identifier of an enclosing loop, the unconditional
erase afterwards deactivates the outer binding as well. -/
theorem c3_for_locals_scoped :
    (∀ (fuel : Nat) (loader : Loader) (g : Generator) (n : Node),
      scopeSafeN g.args n = true → ((walk fuel loader g n).1).args = g.args)
    ∧ (∀ (g : Generator) (key0 val : String),
      walkExpr { g with args := argsInsert val (if key0 != "" then argsInsert key0 g.args else g.args) }
        (Expr.name val) = .ok (newNameExpr val)) := by
  constructor
  · intro fuel loader g n h
    exact run_args_preserved fuel loader g (.node n) (by rw [jobSafe]; exact h)
  · intro g key0 val
    unfold walkExpr
    rw [if_pos (argsInsert_contains_self val _)]

/-- C3 amended witness: a loop binding `x` with a body printing `x` is
scope-safe against the active set containing only `y`; walking it returns
the set unchanged, and inside the body the bound name resolves directly. -/
theorem c3_for_locals_scoped_witness :
    scopeSafeN gY.args forWitnessNode = true
    ∧ ((walk 5 ldrNone gY forWitnessNode).1).args = ["y"]
    ∧ walkExpr { gT3 with args := argsInsert "x" (if "" != "" then argsInsert "" gT3.args else gT3.args) }
        (Expr.name "x") = .ok (newNameExpr "x") :=
  ⟨rfl, c3_for_locals_scoped.1 5 ldrNone gY forWitnessNode rfl,
    c3_for_locals_scoped.2 gT3 "" "x"⟩

end Stickgen
